import Mathlib

set_option maxRecDepth 100000

/-!
Shallow embedding of the Kanban board's task store (`TaskManager`, `taskManager.js`),
its drag-and-drop engine (`dragDrop.js`) and the form submission layer
(`eventHandlers.js`).

JavaScript strings are modelled as `String`; a value that may be the JavaScript
`undefined` (such as `column.dataset.status` when the attribute is missing) is
modelled as `Option String`, `none` standing for `undefined`.  Task `status`
fields are `Option String` throughout, since `updateTaskStatus` stores whatever
value it is handed, including `undefined`.  ISO timestamp strings are modelled
as abstract `Nat` clock values passed in by the caller.
-/

namespace Kanban

/-- A task record as built by `TaskManager.createTask`. -/
structure Task where
  id : String
  title : String
  description : String
  status : Option String
  createdAt : Nat
  updatedAt : Nat
deriving DecidableEq

/-- Model of the JavaScript `String.prototype.trim()`: strip whitespace from
both ends of the string. -/
def jsTrim (s : String) : String :=
  ⟨((s.data.dropWhile Char.isWhitespace).reverse.dropWhile Char.isWhitespace).reverse⟩

/-- Model of `this.tasks.find(t => t.id === taskId)`. -/
def findTask (tasks : List Task) (taskId : String) : Option Task :=
  tasks.find? (fun t => t.id == taskId)

/-- Model of `TaskManager.createTask(title, description)`: throws when the trimmed title
is empty, otherwise pushes a fresh task (status `'todo'`, trimmed fields) onto
the end of `this.tasks` and returns it.  The fresh id produced by
`DOMUtils.generateUniqueId` and the current time are passed in as `newId` and
`now`. -/
def createTask (tasks : List Task) (newId : String) (now : Nat)
    (title description : String) : Except String (Task × List Task) :=
  if jsTrim title = "" then
    .error "Task title is required"
  else
    let task : Task :=
      { id := newId, title := jsTrim title, description := jsTrim description,
        status := some "todo", createdAt := now, updatedAt := now }
    .ok (task, tasks ++ [task])

/-- Mutate the first task whose id matches, leave the rest untouched
(the JavaScript code mutates the object returned by `find` in place). -/
def updateFirstById : List Task → String → (Task → Task) → List Task
  | [], _, _ => []
  | t :: rest, taskId, f =>
    if t.id == taskId then f t :: rest else t :: updateFirstById rest taskId f

/-- Model of `TaskManager.updateTaskStatus(taskId, newStatus)`: early-returns (after a
`console.error`) when no task matches, otherwise sets `status` and `updatedAt`
on the found task.  No validation is performed on `newStatus`. -/
def updateTaskStatus (tasks : List Task) (taskId : String)
    (newStatus : Option String) (now : Nat) : List Task :=
  match tasks.find? (fun t => t.id == taskId) with
  | none => tasks
  | some _ =>
      updateFirstById tasks taskId
        (fun t => { t with status := newStatus, updatedAt := now })

/-- Remove the first task whose id matches (`indexOf` the object returned by
`find`, then `splice(index, 1)`); identity when no task matches. -/
def removeFirstById : List Task → String → List Task
  | [], _ => []
  | t :: rest, taskId =>
    if t.id == taskId then rest else t :: removeFirstById rest taskId

/-- Model of `statusTasks.splice(position, 0, task)` for `0 ≤ position ≤ length`. -/
def spliceIn (l : List Task) (i : Nat) (a : Task) : List Task :=
  l.take i ++ a :: l.drop i

/-- Model of `TaskManager.moveTaskToPosition(taskId, status, position)`: removes the
found task from `this.tasks`, partitions the remainder into same-status and
other-status tasks, splices the task into the same-status subsequence at
`position` when `0 ≤ position ≤ statusTasks.length` (pushes it at the end
otherwise), and rebuilds `this.tasks` as `[...otherTasks, ...statusTasks]`.
Note that the task's own `status` field is never written. -/
def moveTaskToPosition (tasks : List Task) (taskId : String)
    (status : Option String) (position : Int) : List Task :=
  match tasks.find? (fun t => t.id == taskId) with
  | none => tasks
  | some task =>
      let rest := removeFirstById tasks taskId
      let statusTasks := rest.filter (fun t => t.status == status)
      let otherTasks := rest.filter (fun t => t.status != status)
      let newStatusTasks :=
        if 0 ≤ position ∧ position ≤ (statusTasks.length : Int) then
          spliceIn statusTasks position.toNat task
        else
          statusTasks ++ [task]
      otherTasks ++ newStatusTasks

/-- Model of `TaskManager.deleteTask(taskId)`: early-returns (after a `console.error`)
when `findIndex` misses, otherwise `splice(taskIndex, 1)`. -/
def deleteTask (tasks : List Task) (taskId : String) : List Task :=
  match tasks.findIdx? (fun t => t.id == taskId) with
  | none => tasks
  | some i => tasks.eraseIdx i

/-- Model of `TaskManager.getTasksByStatus(status)`: the status-filtered view. -/
def getTasksByStatus (tasks : List Task) (status : Option String) : List Task :=
  tasks.filter (fun t => t.status == status)

/-- The index at which `moveTaskToPosition` actually inserts within the
status group of length `len`: `position` itself when `0 ≤ position ≤ len`,
the end of the group otherwise. -/
def clampPos (len : Nat) (position : Int) : Nat :=
  if 0 ≤ position ∧ position ≤ (len : Int) then position.toNat else len

/-- One store operation, for stating reachability (`create` carries the fresh
id and clock, `updateStatus` carries the clock). -/
inductive Op where
  | create (newId : String) (now : Nat) (title description : String)
  | updateStatus (taskId : String) (newStatus : Option String) (now : Nat)
  | move (taskId : String) (status : Option String) (position : Int)
  | delete (taskId : String)

/-- Apply one operation to the store; a `createTask` whose validation throws
leaves the list unchanged (the exception propagates before any mutation). -/
def applyOp (tasks : List Task) : Op → List Task
  | .create newId now title description =>
      match createTask tasks newId now title description with
      | .ok (_, tasks') => tasks'
      | .error _ => tasks
  | .updateStatus taskId newStatus now => updateTaskStatus tasks taskId newStatus now
  | .move taskId status position => moveTaskToPosition tasks taskId status position
  | .delete taskId => deleteTask tasks taskId

/-- Run a sequence of store operations. -/
def runOps (tasks : List Task) (ops : List Op) : List Task :=
  ops.foldl applyOp tasks

/-- The status enumeration actually used by the code (`taskManager.js` column
mappings and counters): the strings `todo`, `inprogress`, `done`. -/
def ValidStatus (s : Option String) : Prop :=
  s = some "todo" ∨ s = some "inprogress" ∨ s = some "done"

instance (s : Option String) : Decidable (ValidStatus s) := by
  unfold ValidStatus; infer_instance

/-- An operation is status-safe when any status it writes is enumerated
(`updateStatus` is the only operation that writes a status field). -/
def OpStatusSafe : Op → Prop
  | .updateStatus _ newStatus _ => ValidStatus newStatus
  | _ => True

instance (op : Op) : Decidable (OpStatusSafe op) := by
  cases op <;> simp only [OpStatusSafe] <;> infer_instance

/-! ### Drag-and-drop engine (`dragDrop.js`) -/

/-- Model of `DragDrop.handleInsertionPoint`: walk the non-dragged sibling cards in DOM
order; while the pointer's y-coordinate is strictly below a card's vertical
midpoint (`mouseY > cardMiddle`) the placeholder moves past that card;
the walk `break`s at the first card whose midpoint is at or below the pointer.
The resulting insertion index is the number of cards stepped past. -/
def computeInsertionIndex : List ℚ → ℚ → Nat
  | [], _ => 0
  | m :: rest, mouseY =>
    if mouseY > m then computeInsertionIndex rest mouseY + 1 else 0

/-- A drop-target column: `status` models `column.dataset.status`
(`none` = attribute missing, i.e. JavaScript `undefined`). -/
structure DropColumn where
  status : Option String

/-- Model of `DragDrop.handleDrop`: early-returns when no drag is active or the drop
target has no `.column` ancestor (no store change, no cleanup — cleanup then
happens only in the later `dragend` handler).  Otherwise it reads the column's
status tag *without validation*, calls `updateTaskStatus` then
`moveTaskToPosition` with it, and runs `cleanupDragState`.  Returns the new
store and whether `cleanupDragState` ran. -/
def handleDrop (tasks : List Task) (dragActive : Bool)
    (column : Option DropColumn) (taskId : String) (insertionIndex : Int)
    (now : Nat) : List Task × Bool :=
  if dragActive then
    match column with
    | none => (tasks, false)
    | some col =>
        let afterStatus := updateTaskStatus tasks taskId col.status now
        (moveTaskToPosition afterStatus taskId col.status insertionIndex, true)
  else (tasks, false)

/-! ### Form layer (`eventHandlers.js`) -/

/-- Outcome of the validation phase of `EventHandlers.handleFormSubmission`. -/
inductive FormResult where
  | fieldError (message : String)
  | submitted (title description : String)
deriving DecidableEq

/-- Model of `EventHandlers.handleFormSubmission`: trims both inputs, rejects an empty
title, a trimmed title longer than 100 characters, and a trimmed description
longer than 500 characters; otherwise hands the trimmed strings to
`createTask`. -/
def handleFormSubmission (titleValue descriptionValue : String) : FormResult :=
  let title := jsTrim titleValue
  let description := jsTrim descriptionValue
  if title = "" then .fieldError "Task title is required"
  else if title.length > 100 then
    .fieldError "Task title must be 100 characters or less"
  else if description.length > 500 then
    .fieldError "Description must be 500 characters or less"
  else .submitted title description


/-! ### Concrete sample data for witnesses and counterexamples -/

/-- A sample todo task. -/
def sampleA : Task :=
  { id := "a", title := "A", description := "", status := some "todo",
    createdAt := 0, updatedAt := 0 }

/-- A second sample todo task. -/
def sampleB : Task :=
  { id := "b", title := "B", description := "", status := some "todo",
    createdAt := 0, updatedAt := 0 }

/-- A sample in-progress task. -/
def sampleC : Task :=
  { id := "c", title := "C", description := "", status := some "inprogress",
    createdAt := 0, updatedAt := 0 }

/-- A sample done task. -/
def sampleD : Task :=
  { id := "d", title := "D", description := "", status := some "done",
    createdAt := 0, updatedAt := 0 }

/-- A second sample done task. -/
def sampleE : Task :=
  { id := "e", title := "E", description := "", status := some "done",
    createdAt := 0, updatedAt := 0 }

/-- A 101-character title, over the form layer's 100-character limit. -/
def longTitle : String := String.mk (List.replicate 101 'a')

/-- A 501-character description, over the form layer's 500-character limit. -/
def longDescription : String := String.mk (List.replicate 501 'b')

/-! ### C6: create validation -/

/-- C6: for every title that is empty after trimming, `createTask` fails with
the validation error and (the exception propagating before any mutation) the
task list is unchanged; otherwise it succeeds, assigns status `todo`, appends
the new task at the end of the global list, and returns it. -/
theorem createTask_validation (tasks : List Task) (newId : String) (now : Nat)
    (title description : String) :
    (jsTrim title = "" →
      createTask tasks newId now title description =
        .error "Task title is required") ∧
    (jsTrim title ≠ "" →
      createTask tasks newId now title description =
        .ok ({ id := newId, title := jsTrim title,
               description := jsTrim description, status := some "todo",
               createdAt := now, updatedAt := now },
             tasks ++ [{ id := newId, title := jsTrim title,
                         description := jsTrim description, status := some "todo",
                         createdAt := now, updatedAt := now }])) := by
  constructor <;> intro h <;> simp [createTask, h]

/-- Witness for C6 at `""`, `"   "` and `" hello "`. -/
theorem createTask_validation_witness :
    (jsTrim "" = "" ∧ jsTrim "   " = "" ∧ jsTrim " hello " ≠ "") ∧
    createTask [] "task_1" 0 "" "x" = .error "Task title is required" ∧
    createTask [] "task_1" 0 "   " "x" = .error "Task title is required" ∧
    createTask [] "task_1" 0 " hello " "x" =
      .ok ({ id := "task_1", title := jsTrim " hello ", description := jsTrim "x",
             status := some "todo", createdAt := 0, updatedAt := 0 },
           [{ id := "task_1", title := jsTrim " hello ", description := jsTrim "x",
              status := some "todo", createdAt := 0, updatedAt := 0 }]) :=
  ⟨⟨by decide, by decide, by decide⟩,
   (createTask_validation [] "task_1" 0 "" "x").1 (by decide),
   (createTask_validation [] "task_1" 0 "   " "x").1 (by decide),
   (createTask_validation [] "task_1" 0 " hello " "x").2 (by decide)⟩

/-! ### C7: unknown-id operations are no-ops -/

/-- C7: for every store state and every id not present in the store,
`updateTaskStatus`, `deleteTask` and `moveTaskToPosition` raise nothing and
leave the task list byte-for-byte unchanged. -/
theorem unknownId_noop (tasks : List Task) (taskId : String)
    (s : Option String) (now : Nat) (position : Int)
    (h : ∀ t ∈ tasks, t.id ≠ taskId) :
    updateTaskStatus tasks taskId s now = tasks ∧
    deleteTask tasks taskId = tasks ∧
    moveTaskToPosition tasks taskId s position = tasks := by
  have hfind : tasks.find? (fun t => t.id == taskId) = none := by
    simp only [List.find?_eq_none, beq_iff_eq]
    exact h
  have hidx : tasks.findIdx? (fun t => t.id == taskId) = none := by
    rw [List.findIdx?_eq_none_iff]
    intro x hx
    simpa using h x hx
  refine ⟨?_, ?_, ?_⟩
  · simp [updateTaskStatus, hfind]
  · simp [deleteTask, hidx]
  · simp [moveTaskToPosition, hfind]

/-- Witness for C7: operations with the unknown id `"nope"` on a one-task
store. -/
theorem unknownId_noop_witness :
    updateTaskStatus [sampleA] "nope" (some "done") 5 = [sampleA] ∧
    deleteTask [sampleA] "nope" = [sampleA] ∧
    moveTaskToPosition [sampleA] "nope" (some "done") 0 = [sampleA] :=
  unknownId_noop [sampleA] "nope" (some "done") 5 0 (by decide)

/-! ### C10: no length validation in the store -/

/-- C10: `createTask` stores trimmed inputs and performs no length validation —
it succeeds for every title with non-empty trim however long, while the
100/500-character limits are enforced by `handleFormSubmission` in the UI
form layer. -/
theorem createTask_no_length_limit :
    (∀ (tasks : List Task) (newId : String) (now : Nat)
       (title description : String),
      jsTrim title ≠ "" →
      createTask tasks newId now title description =
        .ok ({ id := newId, title := jsTrim title,
               description := jsTrim description, status := some "todo",
               createdAt := now, updatedAt := now },
             tasks ++ [{ id := newId, title := jsTrim title,
                         description := jsTrim description, status := some "todo",
                         createdAt := now, updatedAt := now }])) ∧
    (∀ titleValue descriptionValue : String,
      jsTrim titleValue ≠ "" → (jsTrim titleValue).length > 100 →
      handleFormSubmission titleValue descriptionValue =
        .fieldError "Task title must be 100 characters or less") ∧
    (∀ titleValue descriptionValue : String,
      jsTrim titleValue ≠ "" → (jsTrim titleValue).length ≤ 100 →
      (jsTrim descriptionValue).length > 500 →
      handleFormSubmission titleValue descriptionValue =
        .fieldError "Description must be 500 characters or less") := by
  refine ⟨?_, ?_, ?_⟩
  · intro tasks newId now title description h
    simp [createTask, h]
  · intro titleValue descriptionValue h1 h2
    simp [handleFormSubmission, h1, h2]
  · intro titleValue descriptionValue h1 h2 h3
    simp [handleFormSubmission, h1, h3, Nat.not_lt.mpr h2]

/-- Witness for C10 at a 101-character title and a 501-character
description. -/
theorem createTask_no_length_limit_witness :
    (jsTrim longTitle ≠ "" ∧ (jsTrim longTitle).length > 100 ∧
      (jsTrim "t").length ≤ 100 ∧ (jsTrim longDescription).length > 500) ∧
    createTask [] "task_1" 0 longTitle longDescription =
      .ok ({ id := "task_1", title := jsTrim longTitle,
             description := jsTrim longDescription, status := some "todo",
             createdAt := 0, updatedAt := 0 },
           [{ id := "task_1", title := jsTrim longTitle,
              description := jsTrim longDescription, status := some "todo",
              createdAt := 0, updatedAt := 0 }]) ∧
    handleFormSubmission longTitle "d" =
      .fieldError "Task title must be 100 characters or less" ∧
    handleFormSubmission "t" longDescription =
      .fieldError "Description must be 500 characters or less" :=
  ⟨⟨by decide, by decide, by decide, by decide⟩,
   createTask_no_length_limit.1 [] "task_1" 0 longTitle longDescription (by decide),
   createTask_no_length_limit.2.1 longTitle "d" (by decide) (by decide),
   createTask_no_length_limit.2.2 "t" longDescription (by decide) (by decide)
     (by decide)⟩

/-! ### C3: drag insertion index -/

/-- C3 (amended): when the non-dragged sibling midpoints are non-decreasing in
DOM order (cards stacked top to bottom), the computed insertion index equals
the number of siblings whose midpoint lies strictly above the pointer; for
midpoints 100, 200, 300 and pointer y = 150 the index is 1. -/
theorem insertionIndex_counts_above :
    (∀ (mids : List ℚ) (y : ℚ), mids.Sorted (· ≤ ·) →
      computeInsertionIndex mids y = mids.countP (fun m => m < y)) ∧
    computeInsertionIndex [100, 200, 300] 150 = 1 := by
  constructor
  · intro mids y hsorted
    induction mids with
    | nil => rfl
    | cons m rest ih =>
      rw [List.sorted_cons] at hsorted
      obtain ⟨hall, hrest⟩ := hsorted
      by_cases hm : y > m
      · simp only [computeInsertionIndex, if_pos hm]
        rw [ih hrest, List.countP_cons_of_pos]
        simpa using hm
      · simp only [computeInsertionIndex, if_neg hm]
        symm
        rw [List.countP_eq_zero]
        intro a ha
        rcases List.mem_cons.mp ha with h | h
        · subst h; simpa using hm
        · have hma : m ≤ a := hall a h
          simp only [decide_eq_true_eq]
          intro hay
          exact hm (lt_of_le_of_lt hma hay)
  · decide

/-- Witness for C3: the sorted midpoint sequence 100, 200, 300 with pointer
y = 150. -/
theorem insertionIndex_counts_above_witness :
    ([100, 200, 300] : List ℚ).Sorted (· ≤ ·) ∧
    computeInsertionIndex [100, 200, 300] 150 =
      ([100, 200, 300] : List ℚ).countP (fun m => m < 150) ∧
    computeInsertionIndex [100, 200, 300] 150 = 1 :=
  ⟨by decide, insertionIndex_counts_above.1 [100, 200, 300] 150 (by decide),
   insertionIndex_counts_above.2⟩

/-- C3 counterexample: for the DOM-ordered (unsorted) midpoint sequence
200, 100 and pointer y = 150 the code computes index 0 (it breaks at the first
midpoint at or below the pointer), while exactly one sibling midpoint (100)
lies strictly above the pointer. -/
theorem insertionIndex_counterexample :
    computeInsertionIndex [200, 100] 150 = 0 ∧
    ([200, 100] : List ℚ).countP (fun m => m < 150) = 1 ∧
    computeInsertionIndex [200, 100] 150 ≠
      ([200, 100] : List ℚ).countP (fun m => m < 150) := by
  refine ⟨by decide, by decide, by decide⟩

/-! ### Helper lemmas about `removeFirstById`, `spliceIn` and
`moveTaskToPosition` -/

/-- Removing the first id match yields a sublist of the original list. -/
lemma removeFirstById_sublist (l : List Task) (taskId : String) :
    List.Sublist (removeFirstById l taskId) l := by
  induction l with
  | nil => exact List.Sublist.refl _
  | cons t rest ih =>
    by_cases h : (t.id == taskId) = true
    · simp only [removeFirstById, h, if_true]
      exact List.sublist_cons_self t rest
    · simpa [removeFirstById, h] using
        (@List.cons_sublist_cons Task t (removeFirstById rest taskId) rest).mpr ih

/-- `removeFirstById` walks past a prefix with no id match. -/
lemma removeFirstById_append (l1 l2 : List Task) (taskId : String)
    (h : ∀ u ∈ l1, (u.id == taskId) = false) :
    removeFirstById (l1 ++ l2) taskId = l1 ++ removeFirstById l2 taskId := by
  induction l1 with
  | nil => rfl
  | cons t rest ih =>
    have ht := h t (List.mem_cons_self t rest)
    simp only [List.cons_append, removeFirstById, ht, Bool.false_eq_true,
      if_false, List.cons.injEq, true_and]
    exact ih (fun u hu => h u (List.mem_cons_of_mem t hu))

/-- `removeFirstById` removes a matching head. -/
lemma removeFirstById_cons_self (t : Task) (rest : List Task) (taskId : String)
    (ht : (t.id == taskId) = true) :
    removeFirstById (t :: rest) taskId = rest := by
  simp [removeFirstById, ht]

/-- `removeFirstById` is the identity when nothing matches. -/
lemma removeFirstById_of_none (l : List Task) (taskId : String)
    (h : ∀ u ∈ l, (u.id == taskId) = false) :
    removeFirstById l taskId = l := by
  induction l with
  | nil => rfl
  | cons t rest ih =>
    have ht := h t (List.mem_cons_self t rest)
    simp only [removeFirstById, ht, Bool.false_eq_true, if_false,
      List.cons.injEq, true_and]
    exact ih (fun u hu => h u (List.mem_cons_of_mem t hu))

/-- Decompose a successful `find?` on the id predicate. -/
lemma find?_id_split {tasks : List Task} {taskId : String} {t : Task}
    (hfind : tasks.find? (fun u => u.id == taskId) = some t) :
    t.id = taskId ∧
      ∃ pre post, tasks = pre ++ t :: post ∧
        ∀ u ∈ pre, (u.id == taskId) = false := by
  rw [List.find?_eq_some] at hfind
  obtain ⟨hp, pre, post, heq, hpre⟩ := hfind
  exact ⟨by simpa using hp, pre, post, heq,
    fun u hu => by simpa using hpre u hu⟩

/-- Membership in a splice. -/
lemma mem_spliceIn {l : List Task} {i : Nat} {a u : Task} :
    u ∈ spliceIn l i a ↔ u ∈ l ∨ u = a := by
  unfold spliceIn
  constructor
  · intro h
    rcases List.mem_append.mp h with h1 | h1
    · exact Or.inl ((List.take_sublist i l).mem h1)
    · rcases List.mem_cons.mp h1 with h2 | h2
      · exact Or.inr h2
      · exact Or.inl ((List.drop_sublist i l).mem h2)
  · intro h
    rcases h with h1 | h1
    · conv at h1 => rw [← List.take_append_drop i l]
      rcases List.mem_append.mp h1 with h2 | h2
      · exact List.mem_append.mpr (Or.inl h2)
      · exact List.mem_append.mpr (Or.inr (List.mem_cons_of_mem a h2))
    · exact List.mem_append.mpr (Or.inr (h1 ▸ List.mem_cons_self a _))

/-- Filtering a splice whose new element fails the predicate. -/
lemma filter_spliceIn_neg {p : Task → Bool} {l : List Task} {i : Nat} {a : Task}
    (hpa : p a = false) :
    (spliceIn l i a).filter p = l.filter p := by
  unfold spliceIn
  rw [List.filter_append, List.filter_cons_of_neg (by simp [hpa]),
    ← List.filter_append, List.take_append_drop]

/-- Unfold `moveTaskToPosition` once the task has been found. -/
lemma moveTaskToPosition_eq_of_find {tasks : List Task} {taskId : String}
    {t : Task} (st : Option String) (position : Int)
    (hfind : tasks.find? (fun u => u.id == taskId) = some t) :
    moveTaskToPosition tasks taskId st position =
      (removeFirstById tasks taskId).filter (fun u => u.status != st) ++
        (if 0 ≤ position ∧ position ≤
            (((removeFirstById tasks taskId).filter
              (fun u => u.status == st)).length : Int) then
          spliceIn ((removeFirstById tasks taskId).filter
            (fun u => u.status == st)) position.toNat t
        else
          (removeFirstById tasks taskId).filter (fun u => u.status == st)
            ++ [t]) := by
  unfold moveTaskToPosition
  rw [hfind]

/-- Tasks filtered to the other statuses contribute nothing to a status
view. -/
lemma filter_eq_of_filter_ne (l : List Task) (st : Option String) :
    (l.filter (fun u => u.status != st)).filter (fun u => u.status == st)
      = [] := by
  rw [List.filter_filter]
  apply List.filter_eq_nil_iff.mpr
  intro a _
  simp [bne]

/-- A status view is already status-homogeneous. -/
lemma filter_eq_of_filter_eq (l : List Task) (st : Option String) :
    (l.filter (fun u => u.status == st)).filter (fun u => u.status == st)
      = l.filter (fun u => u.status == st) := by
  rw [List.filter_filter]
  simp

/-- A third sample done task. -/
def sampleF : Task :=
  { id := "f", title := "F", description := "", status := some "done",
    createdAt := 0, updatedAt := 0 }

/-! ### C1: moveToPosition places the task at the clamped index -/

/-- C1 (amended): `moveTaskToPosition` never writes the task's `status` field;
when the moved task's status already equals the target status (as the drop
handler arranges by calling `updateTaskStatus` first), the task ends up at the
clamped index of the `getTasksByStatus` view of the target status. -/
theorem moveToPosition_clamped_index (tasks : List Task) (taskId : String)
    (st : Option String) (position : Int) (t : Task)
    (hfind : tasks.find? (fun u => u.id == taskId) = some t)
    (hstatus : t.status = st) :
    (getTasksByStatus (moveTaskToPosition tasks taskId st position) st)[
      clampPos (((removeFirstById tasks taskId).filter
        (fun u => u.status == st)).length) position]? = some t := by
  have htb : (t.status == st) = true := by simp [hstatus]
  rw [moveTaskToPosition_eq_of_find st position hfind]
  by_cases hc : 0 ≤ position ∧ position ≤
      ((((removeFirstById tasks taskId).filter
        (fun u => u.status == st)).length : Int))
  · rw [if_pos hc]
    unfold getTasksByStatus clampPos
    rw [if_pos hc, List.filter_append, filter_eq_of_filter_ne,
      List.nil_append]
    have hall : (spliceIn ((removeFirstById tasks taskId).filter
          (fun u => u.status == st)) position.toNat t).filter
          (fun u => u.status == st) =
        spliceIn ((removeFirstById tasks taskId).filter
          (fun u => u.status == st)) position.toNat t := by
      rw [List.filter_eq_self]
      intro a ha
      rcases mem_spliceIn.mp ha with h1 | h1
      · exact (List.mem_filter.mp h1).2
      · rw [h1]; exact htb
    rw [hall]
    have hnat : position.toNat ≤ ((removeFirstById tasks taskId).filter
        (fun u => u.status == st)).length := by
      rcases hc with ⟨h0, h1⟩
      omega
    have hlentake : (((removeFirstById tasks taskId).filter
        (fun u => u.status == st)).take position.toNat).length =
        position.toNat := by
      rw [List.length_take]
      omega
    unfold spliceIn
    rw [List.getElem?_append_right (le_of_eq hlentake), hlentake,
      Nat.sub_self]
    simp
  · rw [if_neg hc]
    unfold getTasksByStatus clampPos
    rw [if_neg hc, List.filter_append, filter_eq_of_filter_ne,
      List.nil_append, List.filter_append, filter_eq_of_filter_eq]
    have hone : ([t].filter (fun u => u.status == st)) = [t] := by
      simp [htb]
    rw [hone, List.getElem?_append_right (le_refl _), Nat.sub_self]
    simp

/-- Witness for C1: moving task `a` (status `todo`) to position 1 of the
`todo` column in a two-task store. -/
theorem moveToPosition_clamped_index_witness :
    ([sampleA, sampleB].find? (fun u => u.id == "a") = some sampleA) ∧
    sampleA.status = some "todo" ∧
    (getTasksByStatus
        (moveTaskToPosition [sampleA, sampleB] "a" (some "todo") 1)
        (some "todo"))[
      clampPos (((removeFirstById [sampleA, sampleB] "a").filter
        (fun u => u.status == some "todo")).length) 1]? = some sampleA ∧
    getTasksByStatus (moveTaskToPosition [sampleA, sampleB] "a"
      (some "todo") 1) (some "todo") = [sampleB, sampleA] :=
  ⟨by decide, by decide,
   moveToPosition_clamped_index [sampleA, sampleB] "a" (some "todo") 1 sampleA
     (by decide) (by decide),
   by decide⟩

/-- C1 counterexample: moving the `todo` task `a` to status `done` does not
set its status, so `getTasksByStatus` of the target status does not contain it
at any index. -/
theorem moveToPosition_status_counterexample :
    getTasksByStatus (moveTaskToPosition [sampleA] "a" (some "done") 0)
        (some "done") = [] ∧
    (moveTaskToPosition [sampleA] "a" (some "done") 0).map Task.status =
      [some "todo"] := by
  refine ⟨by decide, by decide⟩

/-! ### C2: stability of non-moved tasks -/

/-- C2 (amended): `moveTaskToPosition` preserves, as exact subsequences, both
the sequence of non-moved tasks carrying the target status and the sequence of
non-moved tasks carrying any other status (so any two distinct non-moved tasks
on the same side of that partition — in particular within one status column —
keep their relative order); the spec example holds: moving A (todo) to
inprogress at position 0 in [A(todo), B(todo), C(inprogress)], with the status
update the drop handler performs first, yields inprogress order [A, C] and
todo order [B].  Cross-partition pairs may be reordered (see the
counterexample). -/
theorem move_stability :
    (∀ (tasks : List Task) (taskId : String) (st : Option String)
        (position : Int),
      (moveTaskToPosition tasks taskId st position).filter
          (fun u => u.status == st && u.id != taskId) =
        tasks.filter (fun u => u.status == st && u.id != taskId) ∧
      (moveTaskToPosition tasks taskId st position).filter
          (fun u => u.status != st && u.id != taskId) =
        tasks.filter (fun u => u.status != st && u.id != taskId)) ∧
    (getTasksByStatus
        (moveTaskToPosition
          (updateTaskStatus [sampleA, sampleB, sampleC] "a"
            (some "inprogress") 1)
          "a" (some "inprogress") 0)
        (some "inprogress") =
      [{ sampleA with status := some "inprogress", updatedAt := 1 },
        sampleC] ∧
     getTasksByStatus
        (moveTaskToPosition
          (updateTaskStatus [sampleA, sampleB, sampleC] "a"
            (some "inprogress") 1)
          "a" (some "inprogress") 0)
        (some "todo") = [sampleB]) := by
  constructor
  · intro tasks taskId st position
    cases hfind : tasks.find? (fun u => u.id == taskId) with
    | none =>
      constructor <;> simp [moveTaskToPosition, hfind]
    | some t =>
      obtain ⟨htid, pre, post, heq, hpre⟩ := find?_id_split hfind
      have htne : (t.id != taskId) = false := by simp [bne, htid]
      have hrest : removeFirstById tasks taskId = pre ++ post := by
        rw [heq, removeFirstById_append _ _ _ hpre,
          removeFirstById_cons_self _ _ _ (by simp [htid])]
      rw [moveTaskToPosition_eq_of_find st position hfind]
      constructor
      · rw [List.filter_append]
        have hothers : ((removeFirstById tasks taskId).filter
            (fun u => u.status != st)).filter
            (fun u => u.status == st && u.id != taskId) = [] := by
          apply List.filter_eq_nil_iff.mpr
          intro a ha
          have hne := (List.mem_filter.mp ha).2
          have hne2 : a.status ≠ st := by simpa using hne
          have hfalse : (a.status == st) = false := by simpa using hne2
          simp [hfalse]
        rw [hothers, List.nil_append]
        have hnewstat : (if 0 ≤ position ∧ position ≤
              (((removeFirstById tasks taskId).filter
                (fun u => u.status == st)).length : Int) then
            spliceIn ((removeFirstById tasks taskId).filter
              (fun u => u.status == st)) position.toNat t
          else
            ((removeFirstById tasks taskId).filter
              (fun u => u.status == st)) ++ [t]).filter
            (fun u => u.status == st && u.id != taskId) =
          ((removeFirstById tasks taskId).filter
            (fun u => u.status == st)).filter
            (fun u => u.status == st && u.id != taskId) := by
          split
          · exact filter_spliceIn_neg (by simp [htne])
          · rw [List.filter_append]
            simp [htne]
        rw [hnewstat, List.filter_filter, hrest, heq, List.filter_append,
          List.filter_append, List.filter_cons_of_neg (by simp [htne])]
        congr 1 <;>
          · apply List.filter_congr
            intro u _
            cases hbe : (u.status == st) <;> simp [hbe]
      · rw [List.filter_append]
        have hothers : ((removeFirstById tasks taskId).filter
            (fun u => u.status != st)).filter
            (fun u => u.status != st && u.id != taskId) =
          (removeFirstById tasks taskId).filter
            (fun u => u.status != st && u.id != taskId) := by
          rw [List.filter_filter]
          apply List.filter_congr
          intro u _
          cases hbe : (u.status != st) <;> simp [hbe]
        have hnewstat : (if 0 ≤ position ∧ position ≤
              (((removeFirstById tasks taskId).filter
                (fun u => u.status == st)).length : Int) then
            spliceIn ((removeFirstById tasks taskId).filter
              (fun u => u.status == st)) position.toNat t
          else
            ((removeFirstById tasks taskId).filter
              (fun u => u.status == st)) ++ [t]).filter
            (fun u => u.status != st && u.id != taskId) = [] := by
          have hin : ((removeFirstById tasks taskId).filter
              (fun u => u.status == st)).filter
              (fun u => u.status != st && u.id != taskId) = [] := by
            apply List.filter_eq_nil_iff.mpr
            intro a ha
            have heq2 := (List.mem_filter.mp ha).2
            have heq3 : a.status = st := by simpa using heq2
            have hfalse : (a.status != st) = false := by simpa using heq3
            simp [hfalse]
          split
          · rw [filter_spliceIn_neg (by simp [htne]), hin]
          · rw [List.filter_append, hin]
            simp [htne]
        rw [hothers, hnewstat, List.append_nil, hrest, heq,
          List.filter_append, List.filter_append,
          List.filter_cons_of_neg (by simp [htne])]
  · refine ⟨by decide, by decide⟩

/-- C2 counterexample: in the store [D(done), A(todo), B(todo)], moving B to
`done` at position 0 flips the relative order of the two non-moved tasks D and
A in the global task list (D before A becomes A before D), because the list is
rebuilt as other-status tasks followed by target-status tasks. -/
theorem move_stability_counterexample :
    (([sampleD, sampleA, sampleB].map Task.id).findIdx
        (fun s => s == "d") <
      ([sampleD, sampleA, sampleB].map Task.id).findIdx
        (fun s => s == "a")) ∧
    (((moveTaskToPosition [sampleD, sampleA, sampleB] "b" (some "done")
          0).map Task.id).findIdx (fun s => s == "a") <
      ((moveTaskToPosition [sampleD, sampleA, sampleB] "b" (some "done")
          0).map Task.id).findIdx (fun s => s == "d")) ∧
    (moveTaskToPosition [sampleD, sampleA, sampleB] "b" (some "done") 0).map
        Task.id = ["a", "b", "d"] := by
  refine ⟨by decide, by decide, by decide⟩

/-! ### C8: out-of-range positions append at the end -/

/-- C8: for a task id present in the store and any position outside
[0, countOfStatus] — every negative position and every position greater than
the size of the target status group — `moveTaskToPosition` appends the task at
the end of that status group and raises no error; when the task already
carries the target status, the status view then ends with it. -/
theorem move_clamp_append (tasks : List Task) (taskId : String)
    (st : Option String) (position : Int) (t : Task)
    (hfind : tasks.find? (fun u => u.id == taskId) = some t)
    (hpos : position < 0 ∨
      ((tasks.filter (fun u => u.status == st)).length : Int) < position) :
    moveTaskToPosition tasks taskId st position =
      (removeFirstById tasks taskId).filter (fun u => u.status != st) ++
        ((removeFirstById tasks taskId).filter (fun u => u.status == st)
          ++ [t]) ∧
    (t.status = st →
      getTasksByStatus (moveTaskToPosition tasks taskId st position) st =
        (removeFirstById tasks taskId).filter (fun u => u.status == st)
          ++ [t]) := by
  have hsub : ((removeFirstById tasks taskId).filter
      (fun u => u.status == st)).length ≤
      (tasks.filter (fun u => u.status == st)).length :=
    ((removeFirstById_sublist tasks taskId).filter _).length_le
  have hc : ¬(0 ≤ position ∧ position ≤
      (((removeFirstById tasks taskId).filter
        (fun u => u.status == st)).length : Int)) := by
    rcases hpos with h | h
    · intro hcontra; omega
    · intro hcontra
      have hcast : (((removeFirstById tasks taskId).filter
          (fun u => u.status == st)).length : Int) ≤
          ((tasks.filter (fun u => u.status == st)).length : Int) := by
        exact_mod_cast hsub
      omega
  have hmain : moveTaskToPosition tasks taskId st position =
      (removeFirstById tasks taskId).filter (fun u => u.status != st) ++
        ((removeFirstById tasks taskId).filter (fun u => u.status == st)
          ++ [t]) := by
    rw [moveTaskToPosition_eq_of_find st position hfind, if_neg hc]
  refine ⟨hmain, fun hstatus => ?_⟩
  have htb : (t.status == st) = true := by simp [hstatus]
  rw [hmain]
  unfold getTasksByStatus
  rw [List.filter_append, filter_eq_of_filter_ne, List.nil_append,
    List.filter_append, filter_eq_of_filter_eq]
  simp [htb]

/-- Witness for C8: the `done` group holds D and E; moving the done task F to
position 999 appends it as the third and last entry, with no error. -/
theorem move_clamp_append_witness :
    ([sampleD, sampleE, sampleF].find? (fun u => u.id == "f") =
      some sampleF) ∧
    (((([sampleD, sampleE, sampleF].filter
        (fun u => u.status == some "done")).length : Int)) < 999) ∧
    (moveTaskToPosition [sampleD, sampleE, sampleF] "f" (some "done") 999 =
      (removeFirstById [sampleD, sampleE, sampleF] "f").filter
          (fun u => u.status != some "done") ++
        ((removeFirstById [sampleD, sampleE, sampleF] "f").filter
          (fun u => u.status == some "done") ++ [sampleF])) ∧
    getTasksByStatus (moveTaskToPosition [sampleD, sampleE, sampleF] "f"
      (some "done") 999) (some "done") = [sampleD, sampleE, sampleF] :=
  ⟨by decide, by decide,
   (move_clamp_append [sampleD, sampleE, sampleF] "f" (some "done") 999
     sampleF (by decide) (Or.inr (by decide))).1,
   by decide⟩

/-! ### C4: drops with missing or unrecognized status tags -/

/-- `updateFirstById` walks past a prefix with no id match. -/
lemma updateFirstById_append (l1 l2 : List Task) (taskId : String)
    (f : Task → Task) (h : ∀ u ∈ l1, (u.id == taskId) = false) :
    updateFirstById (l1 ++ l2) taskId f = l1 ++ updateFirstById l2 taskId f := by
  induction l1 with
  | nil => rfl
  | cons t rest ih =>
    have ht := h t (List.mem_cons_self t rest)
    simp only [List.cons_append, updateFirstById, ht, Bool.false_eq_true,
      if_false, List.cons.injEq, true_and]
    exact ih (fun u hu => h u (List.mem_cons_of_mem t hu))

/-- `updateFirstById` rewrites a matching head. -/
lemma updateFirstById_cons_self (t : Task) (rest : List Task) (taskId : String)
    (f : Task → Task) (ht : (t.id == taskId) = true) :
    updateFirstById (t :: rest) taskId f = f t :: rest := by
  simp [updateFirstById, ht]

/-- C4 (amended): `handleDrop` ignores the drop only when no drag is active or
the target has no `.column` ancestor (store untouched, and no cleanup runs in
`handleDrop` itself — cleanup happens in the separate `dragend` handler); a
drop on a column is committed with the column's status tag as-is, with no
validation: the commit runs and writes even a missing (`none`) or unrecognized
tag into the dropped task's status, and only then is session state cleared. -/
theorem handleDrop_unvalidated (tasks : List Task) (taskId : String)
    (position : Int) (now : Nat) :
    (∀ column : Option DropColumn,
      handleDrop tasks false column taskId position now = (tasks, false)) ∧
    handleDrop tasks true none taskId position now = (tasks, false) ∧
    (∀ (col : DropColumn) (t : Task),
      tasks.find? (fun u => u.id == taskId) = some t →
      (handleDrop tasks true (some col) taskId position now).2 = true ∧
      ∃ u ∈ (handleDrop tasks true (some col) taskId position now).1,
        u.id = taskId ∧ u.status = col.status) := by
  refine ⟨fun column => rfl, rfl, fun col t hfind => ⟨rfl, ?_⟩⟩
  obtain ⟨htid, pre, post, heq, hpre⟩ := find?_id_split hfind
  have htb : (t.id == taskId) = true := by simp [htid]
  have hupd : updateTaskStatus tasks taskId col.status now =
      pre ++ ({ t with status := col.status, updatedAt := now } :: post) := by
    unfold updateTaskStatus
    rw [hfind, heq, updateFirstById_append _ _ _ _ hpre,
      updateFirstById_cons_self _ _ _ _ htb]
  have hfind2 : (updateTaskStatus tasks taskId col.status now).find?
      (fun u => u.id == taskId) =
      some { t with status := col.status, updatedAt := now } := by
    rw [hupd, List.find?_append]
    have h1 : pre.find? (fun u => u.id == taskId) = none := by
      rw [List.find?_eq_none]
      intro x hx
      simp [hpre x hx]
    rw [h1, List.find?_cons_of_pos _ (by simpa using htb)]
    rfl
  show ∃ u ∈ moveTaskToPosition (updateTaskStatus tasks taskId col.status now)
      taskId col.status position, u.id = taskId ∧ u.status = col.status
  rw [moveTaskToPosition_eq_of_find col.status position hfind2]
  refine ⟨{ t with status := col.status, updatedAt := now },
    List.mem_append.mpr (Or.inr ?_), htid, rfl⟩
  split
  · exact mem_spliceIn.mpr (Or.inr rfl)
  · exact List.mem_append.mpr (Or.inr (List.mem_cons_self _ _))

/-- Witness for C4: a drop of task `a` on a column whose status tag is the
unrecognized string `bogus`. -/
theorem handleDrop_unvalidated_witness :
    ([sampleA].find? (fun u => u.id == "a") = some sampleA) ∧
    handleDrop [sampleA] false (some { status := some "bogus" }) "a" 0 7 =
      ([sampleA], false) ∧
    (handleDrop [sampleA] true (some { status := some "bogus" }) "a" 0 7).2 =
      true ∧
    (∃ u ∈ (handleDrop [sampleA] true (some { status := some "bogus" })
        "a" 0 7).1, u.id = "a" ∧ u.status = some "bogus") :=
  ⟨by decide,
   (handleDrop_unvalidated [sampleA] "a" 0 7).1 (some { status := some "bogus" }),
   ((handleDrop_unvalidated [sampleA] "a" 0 7).2.2 { status := some "bogus" }
     sampleA (by decide)).1,
   ((handleDrop_unvalidated [sampleA] "a" 0 7).2.2 { status := some "bogus" }
     sampleA (by decide)).2⟩

/-- C4 counterexample: a drop on a column carrying the unrecognized status tag
`bogus` — or no status tag at all (`none`, the JavaScript `undefined`) — does
not fall back to the cancel transition: the store is mutated, the bogus tag
being written into the task's status field. -/
theorem handleDrop_counterexample :
    (handleDrop [sampleA] true (some { status := some "bogus" }) "a" 0 7).1 ≠
      [sampleA] ∧
    (handleDrop [sampleA] true (some { status := some "bogus" }) "a" 0 7).1 =
      [{ sampleA with status := some "bogus", updatedAt := 7 }] ∧
    (handleDrop [sampleA] true (some { status := none }) "a" 0 7).1 =
      [{ sampleA with status := none, updatedAt := 7 }] := by
  refine ⟨by decide, by decide, by decide⟩

/-! ### C5: status invariant over operation sequences -/

/-- Every element of an `updateFirstById` result is an original element or the
image of one. -/
lemma mem_updateFirstById {l : List Task} {taskId : String} {f : Task → Task}
    {u : Task} (h : u ∈ updateFirstById l taskId f) :
    u ∈ l ∨ ∃ v ∈ l, u = f v := by
  induction l with
  | nil => simp [updateFirstById] at h
  | cons t rest ih =>
    by_cases ht : (t.id == taskId) = true
    · rw [updateFirstById_cons_self _ _ _ _ ht] at h
      rcases List.mem_cons.mp h with h1 | h1
      · exact Or.inr ⟨t, List.mem_cons_self t rest, h1⟩
      · exact Or.inl (List.mem_cons_of_mem t h1)
    · simp only [updateFirstById, ht, Bool.false_eq_true, if_false] at h
      rcases List.mem_cons.mp h with h1 | h1
      · exact Or.inl (h1 ▸ List.mem_cons_self t rest)
      · rcases ih h1 with h2 | ⟨v, hv, h2⟩
        · exact Or.inl (List.mem_cons_of_mem t h2)
        · exact Or.inr ⟨v, List.mem_cons_of_mem t hv, h2⟩

/-- `moveTaskToPosition` permutes existing tasks: no new element appears. -/
lemma mem_moveTaskToPosition {tasks : List Task} {taskId : String}
    {st : Option String} {position : Int} {u : Task}
    (h : u ∈ moveTaskToPosition tasks taskId st position) : u ∈ tasks := by
  rcases hf : tasks.find? (fun v => v.id == taskId) with _ | t
  · unfold moveTaskToPosition at h
    rw [hf] at h
    exact h
  · rw [moveTaskToPosition_eq_of_find st position hf] at h
    have hrest : ∀ v, v ∈ removeFirstById tasks taskId → v ∈ tasks :=
      fun v hv => (removeFirstById_sublist tasks taskId).mem hv
    rcases List.mem_append.mp h with h1 | h1
    · exact hrest u (List.mem_filter.mp h1).1
    · have ht : t ∈ tasks := List.mem_of_find?_eq_some hf
      revert h1
      split
      · intro h1
        rcases mem_spliceIn.mp h1 with h2 | h2
        · exact hrest u (List.mem_filter.mp h2).1
        · exact h2 ▸ ht
      · intro h1
        rcases List.mem_append.mp h1 with h2 | h2
        · exact hrest u (List.mem_filter.mp h2).1
        · rcases List.mem_cons.mp h2 with h3 | h3
          · exact h3 ▸ ht
          · simp at h3
/-- `deleteTask` only removes: no new element appears. -/
lemma mem_deleteTask {tasks : List Task} {taskId : String} {u : Task}
    (h : u ∈ deleteTask tasks taskId) : u ∈ tasks := by
  unfold deleteTask at h
  rcases hf : tasks.findIdx? (fun v => v.id == taskId) with _ | i <;> rw [hf] at h
  · exact h
  · exact (List.eraseIdx_sublist tasks i).mem h

/-- One status-safe operation preserves validity of all stored statuses. -/
lemma applyOp_validStatus {tasks : List Task} {op : Op}
    (h1 : ∀ t ∈ tasks, ValidStatus t.status) (h2 : OpStatusSafe op) :
    ∀ u ∈ applyOp tasks op, ValidStatus u.status := by
  intro u hu
  cases op with
  | create newId now title description =>
    unfold applyOp at hu
    by_cases ht : jsTrim title = ""
    · simp [createTask, ht] at hu
      exact h1 u hu
    · simp [createTask, ht] at hu
      rcases hu with h | h
      · exact h1 u h
      · rw [h]
        exact Or.inl rfl
  | updateStatus taskId newStatus now =>
    simp only [applyOp, updateTaskStatus] at hu
    rcases hf : tasks.find? (fun t => t.id == taskId) with _ | t <;>
      rw [hf] at hu
    · exact h1 u hu
    · rcases mem_updateFirstById hu with h | ⟨v, _, hv⟩
      · exact h1 u h
      · rw [hv]
        exact h2
  | move taskId st position =>
    exact h1 u (mem_moveTaskToPosition hu)
  | delete taskId =>
    exact h1 u (mem_deleteTask hu)

/-- C5 (amended): starting from a store whose statuses all lie in the code's
enumeration (`todo`, `inprogress`, `done`) and running any sequence of create,
updateStatus, moveToPosition and delete operations in which every
`updateStatus` passes an enumerated status, every task's status stays in the
enumeration.  The store itself validates nothing: `updateTaskStatus` writes
arbitrary strings verbatim (see the counterexample), `createTask` always
assigns `todo`, and move/delete never touch a status field. -/
theorem statusInvariant (tasks : List Task) (ops : List Op)
    (h1 : ∀ t ∈ tasks, ValidStatus t.status)
    (h2 : ∀ op ∈ ops, OpStatusSafe op) :
    ∀ t ∈ runOps tasks ops, ValidStatus t.status := by
  induction ops generalizing tasks with
  | nil => exact h1
  | cons op rest ih =>
    have hstep := applyOp_validStatus h1 (h2 op (List.mem_cons_self op rest))
    exact ih (applyOp tasks op) hstep
      (fun o ho => h2 o (List.mem_cons_of_mem op ho))

/-- Witness for C5: after the drag flow's own sequence — create, set status
`inprogress`, move within `inprogress` — the surviving task's status is still
enumerated. -/
theorem statusInvariant_witness :
    ValidStatus (Task.status
      { id := "t1", title := "Task", description := "",
        status := some "inprogress", createdAt := 0, updatedAt := 1 }) :=
  statusInvariant []
    [Op.create "t1" 0 "Task" "", Op.updateStatus "t1" (some "inprogress") 1,
     Op.move "t1" (some "inprogress") 0]
    (by decide) (by decide) _ (by decide)

/-- C5 counterexample: `updateTaskStatus` performs no validation, so the
operation sequence create-then-update-with-`garbage` reaches a store holding a
task whose status is outside the enumeration (and also outside the spec
spelling `todo`/`in-progress`/`done`, which differs from the code's
`inprogress`). -/
theorem statusInvariant_counterexample :
    runOps [] [Op.create "t1" 0 "x" "", Op.updateStatus "t1" (some "garbage") 1]
      = [{ id := "t1", title := "x", description := "", status := some "garbage",
           createdAt := 0, updatedAt := 1 }] ∧
    ¬ ValidStatus (some "garbage") ∧
    (some "garbage" : Option String) ∉
      [some "todo", some "in-progress", some "done"] := by
  refine ⟨by decide, by decide, by decide⟩

/-! ### C9: idempotence of moveToPosition -/

/-- Re-filtering other-status tasks changes nothing. -/
lemma filter_ne_of_filter_ne (l : List Task) (st : Option String) :
    (l.filter (fun u => u.status != st)).filter (fun u => u.status != st) =
      l.filter (fun u => u.status != st) := by
  rw [List.filter_filter]
  simp

/-- A status view contributes nothing to the other-status partition. -/
lemma filter_ne_of_filter_eq (l : List Task) (st : Option String) :
    (l.filter (fun u => u.status == st)).filter (fun u => u.status != st) =
      [] := by
  rw [List.filter_filter]
  apply List.filter_eq_nil_iff.mpr
  intro a _
  simp [bne]

/-- C9: with distinct ids and the id present, calling `moveTaskToPosition`
twice in succession with the same arguments (the second call operating on the
already-moved state) yields the same task list as calling it once. -/
theorem move_idempotent (tasks : List Task) (taskId : String)
    (st : Option String) (position : Int) (t : Task)
    (hnodup : (tasks.map Task.id).Nodup)
    (hfind : tasks.find? (fun u => u.id == taskId) = some t) :
    moveTaskToPosition (moveTaskToPosition tasks taskId st position) taskId st
        position = moveTaskToPosition tasks taskId st position := by
  obtain ⟨htid, pre, post, heq, hpre⟩ := find?_id_split hfind
  have htb : (t.id == taskId) = true := by simp [htid]
  have hrest : removeFirstById tasks taskId = pre ++ post := by
    rw [heq, removeFirstById_append _ _ _ hpre,
      removeFirstById_cons_self _ _ _ htb]
  have hpost : ∀ u ∈ post, (u.id == taskId) = false := by
    intro u hu
    have hsub : List.Sublist (t :: post) tasks := by
      rw [heq]
      exact List.sublist_append_right pre (t :: post)
    have hnd : ((t :: post).map Task.id).Nodup :=
      hnodup.sublist (hsub.map Task.id)
    rw [List.map_cons, List.nodup_cons] at hnd
    refine beq_eq_false_iff_ne.mpr ?_
    intro hEq
    exact hnd.1 (by rw [htid, ← hEq]; exact List.mem_map_of_mem Task.id hu)
  have hall : ∀ u ∈ pre ++ post, (u.id == taskId) = false := by
    intro u hu
    rcases List.mem_append.mp hu with h | h
    · exact hpre u h
    · exact hpost u h
  have hothersm : ∀ u ∈ (pre ++ post).filter (fun v => v.status != st),
      (u.id == taskId) = false :=
    fun u hu => hall u (List.mem_filter.mp hu).1
  have hstatm : ∀ u ∈ (pre ++ post).filter (fun v => v.status == st),
      (u.id == taskId) = false :=
    fun u hu => hall u (List.mem_filter.mp hu).1
  have hmove1 : moveTaskToPosition tasks taskId st position =
      (pre ++ post).filter (fun v => v.status != st) ++
        (if 0 ≤ position ∧ position ≤
            (((pre ++ post).filter (fun v => v.status == st)).length : Int)
          then
          spliceIn ((pre ++ post).filter (fun v => v.status == st))
            position.toNat t
        else ((pre ++ post).filter (fun v => v.status == st)) ++ [t]) := by
    rw [moveTaskToPosition_eq_of_find st position hfind, hrest]
  have hfind_new : (if 0 ≤ position ∧ position ≤
        (((pre ++ post).filter (fun v => v.status == st)).length : Int) then
      spliceIn ((pre ++ post).filter (fun v => v.status == st))
        position.toNat t
    else ((pre ++ post).filter (fun v => v.status == st)) ++ [t]).find?
      (fun u => u.id == taskId) = some t := by
    split
    · unfold spliceIn
      rw [List.find?_append]
      have h1 : (((pre ++ post).filter (fun v => v.status == st)).take
          position.toNat).find? (fun u => u.id == taskId) = none := by
        rw [List.find?_eq_none]
        intro x hx
        simp [hstatm x ((List.take_sublist _ _).mem hx)]
      rw [h1, List.find?_cons_of_pos _ (by simpa using htb)]
      rfl
    · rw [List.find?_append]
      have h1 : ((pre ++ post).filter (fun v => v.status == st)).find?
          (fun u => u.id == taskId) = none := by
        rw [List.find?_eq_none]
        intro x hx
        simp [hstatm x hx]
      rw [h1, List.find?_cons_of_pos _ (by simpa using htb)]
      rfl
  have hfind2 : (moveTaskToPosition tasks taskId st position).find?
      (fun u => u.id == taskId) = some t := by
    rw [hmove1, List.find?_append]
    have h0 : ((pre ++ post).filter (fun v => v.status != st)).find?
        (fun u => u.id == taskId) = none := by
      rw [List.find?_eq_none]
      intro x hx
      simp [hothersm x hx]
    rw [h0, hfind_new]
    rfl
  have hremove2 :
      removeFirstById (moveTaskToPosition tasks taskId st position) taskId =
        (pre ++ post).filter (fun v => v.status != st) ++
          (pre ++ post).filter (fun v => v.status == st) := by
    rw [hmove1, removeFirstById_append _ _ _ hothersm]
    congr 1
    split
    · unfold spliceIn
      rw [removeFirstById_append _ _ _
          (fun u hu => hstatm u ((List.take_sublist _ _).mem hu)),
        removeFirstById_cons_self _ _ _ htb, List.take_append_drop]
    · rw [removeFirstById_append _ _ _ hstatm,
        removeFirstById_cons_self _ _ _ htb]
      simp
  have hof : ((pre ++ post).filter (fun v => v.status != st) ++
      (pre ++ post).filter (fun v => v.status == st)).filter
        (fun u => u.status != st) =
      (pre ++ post).filter (fun v => v.status != st) := by
    rw [List.filter_append ((pre ++ post).filter (fun v => v.status != st))
        ((pre ++ post).filter (fun v => v.status == st)),
      filter_ne_of_filter_ne, filter_ne_of_filter_eq, List.append_nil]
  have hsf : ((pre ++ post).filter (fun v => v.status != st) ++
      (pre ++ post).filter (fun v => v.status == st)).filter
        (fun u => u.status == st) =
      (pre ++ post).filter (fun v => v.status == st) := by
    rw [List.filter_append ((pre ++ post).filter (fun v => v.status != st))
        ((pre ++ post).filter (fun v => v.status == st)),
      filter_eq_of_filter_ne, filter_eq_of_filter_eq, List.nil_append]
  rw [moveTaskToPosition_eq_of_find st position hfind2, hremove2, hof, hsf,
    ← hmove1]

/-- Witness for C9: moving task `a` to position 1 of `todo` twice in the
three-task store equals moving it once. -/
theorem move_idempotent_witness :
    ([sampleA, sampleB, sampleC].map Task.id).Nodup ∧
    ([sampleA, sampleB, sampleC].find? (fun u => u.id == "a") =
      some sampleA) ∧
    moveTaskToPosition (moveTaskToPosition [sampleA, sampleB, sampleC] "a"
        (some "todo") 1) "a" (some "todo") 1 =
      moveTaskToPosition [sampleA, sampleB, sampleC] "a" (some "todo") 1 :=
  ⟨by decide, by decide,
   move_idempotent [sampleA, sampleB, sampleC] "a" (some "todo") 1 sampleA
     (by decide) (by decide)⟩

end Kanban
